import Mathlib

/-!
# ip-reporter: address scan, bounded retry and report

A shallow embedding of `main.go`.

* Strings are Lean strings, an `error` is its message text, a `net.IP` is its list
  of bytes, `time.Duration` and clock readings are integers counting nanoseconds.
* A Go result pair `(value, error)` is an `Except String value`.
* The operating system, the clock, the notification server and the standard
  output are explicit: what the program reads is a field of `Env` or `World`,
  what it does is recorded as a list of `Event`s.
* The library functions `main.go` calls (`net.IP.To4`, `IsLoopback`, `String`,
  `strings.HasPrefix`, `time.Since`, `time.Duration.String`) are written out
  after the Go standard library.
-/

namespace IPReporter

/-- Equality of Go result pairs can be decided. -/
instance instDecidableEqExcept {ε α : Type} [DecidableEq ε] [DecidableEq α] :
    DecidableEq (Except ε α) := fun a b =>
  match a, b with
  | .ok x, .ok y => if h : x = y then isTrue (by rw [h]) else isFalse (fun e => h (by cases e; rfl))
  | .error x, .error y =>
    if h : x = y then isTrue (by rw [h]) else isFalse (fun e => h (by cases e; rfl))
  | .ok _, .error _ => isFalse (fun e => by cases e)
  | .error _, .ok _ => isFalse (fun e => by cases e)

/-! ## `net` : addresses -/

/-- One byte. -/
abbrev Byte := Fin 256

/-- A `net.IP`: a slice of bytes (4 for IPv4, 16 for IPv6, any other length is
possible for the type). -/
abbrev IP := List Byte

/-- The `net.Addr` values an interface enumeration can hold: `*net.IPNet`
(address and mask) or any other implementation of the interface. -/
inductive Addr where
  | IPNet (ip : IP) (mask : List Byte)
  | other (network : String) (text : String)
  deriving DecidableEq, Repr

/-- `net.IP.To4`: a 4-byte address is returned as it is, a 16-byte address of the
form `::ffff:a.b.c.d` gives its last four bytes, anything else gives `nil`. -/
def IP.To4 (ip : IP) : Option IP :=
  if ip.length = 4 then some ip
  else if ip.length = 16 ∧ (ip.take 10).all (fun b => b == 0)
      ∧ ip.getD 10 0 = 255 ∧ ip.getD 11 0 = 255 then some (ip.drop 12)
  else none

/-- `net.IPv4(a, b, c, d)`: the 16-byte form of the IPv4 address `a.b.c.d`. -/
def IPv4 (a b c d : Byte) : IP := [0, 0, 0, 0, 0, 0, 0, 0, 0, 0, 255, 255, a, b, c, d]

/-- The address `::1` (`net.IPv6loopback`). -/
def IPv6loopback : IP := [0, 0, 0, 0, 0, 0, 0, 0, 0, 0, 0, 0, 0, 0, 0, 1]

/-- `net.IP.IsLoopback`: first byte 127 for an IPv4 address, equality with `::1`
otherwise. -/
def IP.IsLoopback (ip : IP) : Bool :=
  match ip.To4 with
  | some ip4 => ip4.getD 0 0 == 127
  | none => ip == IPv6loopback

/-- Decimal text of a number (`uitoa`). -/
def uitoa (v : Nat) : String := Nat.repr v

/-- Dotted decimal text of the four bytes of an IPv4 address. -/
def dotted (p4 : IP) : String :=
  uitoa (p4.getD 0 0).val ++ "." ++ uitoa (p4.getD 1 0).val ++ "."
    ++ uitoa (p4.getD 2 0).val ++ "." ++ uitoa (p4.getD 3 0).val

/-- `hexString`: two lower-case hexadecimal digits per byte. -/
def hexString (b : IP) : String :=
  String.mk (b.flatMap (fun x => [Nat.digitChar (x.val / 16), Nat.digitChar (x.val % 16)]))

/-- `appendHex`: lower-case hexadecimal digits of a 16-bit group, no leading
zeros, appended to `dst`. -/
def appendHex (dst : List Char) (i : Nat) : List Char :=
  dst ++ Nat.toDigits 16 i

/-- Inner loop of the search for a run of zero groups: advance `j` by two bytes
while the group at `j` is zero. -/
def zeroRunEnd (p : IP) : Nat → Nat → Nat
  | 0, j => j
  | fuel + 1, j =>
    if j < 16 ∧ p.getD j 0 = 0 ∧ p.getD (j + 1) 0 = 0 then zeroRunEnd p fuel (j + 2) else j

/-- Outer loop of the search for the longest run of zero groups `[e0, e1)`. -/
def longestZeroRun (p : IP) : Nat → Nat → Int × Int → Int × Int
  | 0, _, e => e
  | fuel + 1, i, (e0, e1) =>
    if i < 16 then
      let j := zeroRunEnd p 8 i
      if j > i ∧ (j : Int) - (i : Int) > e1 - e0 then longestZeroRun p fuel (j + 2) (i, j)
      else longestZeroRun p fuel (i + 2) (e0, e1)
    else (e0, e1)

/-- The printing loop of the IPv6 text, with `::` in place of the run `[e0, e1)`. -/
def ipv6Groups (p : IP) (e0 e1 : Int) : Nat → Nat → List Char → List Char
  | 0, _, b => b
  | fuel + 1, i, b =>
    if i < 16 then
      if (i : Int) = e0 then
        let b1 := b ++ [':', ':']
        let i1 := e1.toNat
        if i1 ≥ 16 then b1
        else ipv6Groups p e0 e1 fuel (i1 + 2)
          (appendHex b1 ((p.getD i1 0).val * 256 + (p.getD (i1 + 1) 0).val))
      else
        let b1 := if i > 0 then b ++ [':'] else b
        ipv6Groups p e0 e1 fuel (i + 2)
          (appendHex b1 ((p.getD i 0).val * 256 + (p.getD (i + 1) 0).val))
    else b

/-- `net.IP.String`: `<nil>` for the empty slice, dotted decimal when `To4` is
non-nil, `?` and the hexadecimal bytes for a slice of a wrong length, the
IPv6 text otherwise. -/
def IP.String (ip : IP) : String :=
  if ip.length = 0 then "<nil>"
  else
    match ip.To4 with
    | some p4 => dotted p4
    | none =>
      if ip.length ≠ 16 then "?" ++ hexString ip
      else
        let e := longestZeroRun ip 8 0 (-1, -1)
        let e0 := if e.2 - e.1 ≤ 2 then -1 else e.1
        let e1 := if e.2 - e.1 ≤ 2 then -1 else e.2
        String.mk (ipv6Groups ip e0 e1 8 0 [])

/-- `strings.HasPrefix s pre`: `len(s) >= len(pre) && s[:len(pre)] == pre`. -/
def HasPrefix (s pre : String) : Bool :=
  decide (pre.length ≤ s.length) && (s.data.take pre.length == pre.data)

/-! ## `getLocalIPs` -/

/-- The message of the error `getLocalIPs` makes when nothing was collected. -/
def noMatchMsg : String := "没有找到192.168开头的IP地址"

/-- The body of the `for _, addr := range addrs` loop of `getLocalIPs`: the slice
`ips` after one more entry. -/
def collectStep (ips : List String) (addr : Addr) : List String :=
  match addr with
  | .IPNet ip _ =>
    if !ip.IsLoopback then
      if ip.To4.isSome then
        let s := ip.String
        if HasPrefix s "192.168" then ips ++ [s] else ips
      else ips
    else ips
  | .other _ _ => ips

/-- The loop of `getLocalIPs`, from `var ips []string`. -/
def collectIPs (addrs : List Addr) : List String :=
  addrs.foldl collectStep []

/-- `getLocalIPs`, given what `net.InterfaceAddrs()` returned. -/
def getLocalIPs (os : Except String (List Addr)) : Except String (List String) :=
  match os with
  | .error err => .error err
  | .ok addrs =>
    let ips := collectIPs addrs
    if ips.length = 0 then .error noMatchMsg else .ok ips

/-- The filter as the specification words it: an IP-network address that is not
loopback, is IPv4 and whose text starts with `192.168`. -/
def qualifying (addr : Addr) : Bool :=
  match addr with
  | .IPNet ip _ => !ip.IsLoopback && ip.To4.isSome && HasPrefix ip.String "192.168"
  | .other _ _ => false

/-- The text reported for an address. -/
def addrText (addr : Addr) : String :=
  match addr with
  | .IPNet ip _ => ip.String
  | .other _ text => text

/-- Scenario A: interfaces `10.0.0.5` and `192.168.1.20`. -/
def scenarioA : List Addr :=
  [.IPNet [10, 0, 0, 5] [255, 0, 0, 0],
   .IPNet (IPv4 192 168 1 20) [255, 255, 255, 0]]

/-- Scenario B: interfaces `10.0.0.5` and `127.0.0.1`. -/
def scenarioB : List Addr :=
  [.IPNet [10, 0, 0, 5] [255, 0, 0, 0], .IPNet [127, 0, 0, 1] [255, 0, 0, 0]]

/-! ## `time` -/

/-! A `time.Duration` is a count of nanoseconds, an `int64` in Go: here an
integer, between `minDuration` and `maxDuration` when it is a Go value. -/

/-- `time.Microsecond`. -/
def Microsecond : Int := 1000

/-- `time.Millisecond`. -/
def Millisecond : Int := 1000000

/-- `time.Second`. -/
def Second : Int := 1000000000

/-- `time.Minute`. -/
def Minute : Int := 60 * Second

/-- Largest `time.Duration`. -/
def maxDuration : Int := 2 ^ 63 - 1

/-- Smallest `time.Duration`. -/
def minDuration : Int := -(2 ^ 63)

/-- `time.Since(start)` read when the clock shows `now`: the difference of the
two readings, saturating at the ends of the `Duration` range. -/
def Since (start now : Int) : Int :=
  let d := now - start
  if d > maxDuration then maxDuration else if d < minDuration then minDuration else d

/-- The loop of `fmtFrac`: `n` more digits of `v`, skipping trailing zeros;
`pr` tells whether a digit was written. -/
def fmtFracLoop : Nat → List Char → Nat → Bool → List Char × Nat × Bool
  | 0, buf, v, pr => (buf, v, pr)
  | n + 1, buf, v, pr =>
    let digit := v % 10
    let pr1 := pr || digit != 0
    fmtFracLoop n (if pr1 then Nat.digitChar digit :: buf else buf) (v / 10) pr1

/-- `fmtFrac`: writes the fraction `v / 10^prec` in front of `buf`, without
trailing zeros and without the point when the fraction is zero; returns the
text and `v / 10^prec`. -/
def fmtFrac (buf : List Char) (v : Nat) (prec : Nat) : List Char × Nat :=
  let r := fmtFracLoop prec buf v false
  (if r.2.2 then '.' :: r.1 else r.1, r.2.1)

/-- `fmtInt`: writes `v` in decimal in front of `buf`. -/
def fmtInt (buf : List Char) (v : Nat) : List Char :=
  Nat.toDigits 10 v ++ buf

/-- `time.Duration.String`, the text `%v` gives for a duration (`1m0s`, `1.5s`,
`250ms`, ...). -/
def Duration.String (d : Int) : String :=
  let u := d.natAbs
  let body : List Char :=
    if u < 1000000000 then
      if u = 0 then ['0', 's']
      else if u < 1000 then
        let r := fmtFrac ['n', 's'] u 0
        fmtInt r.1 r.2
      else if u < 1000000 then
        let r := fmtFrac ['µ', 's'] u 3
        fmtInt r.1 r.2
      else
        let r := fmtFrac ['m', 's'] u 6
        fmtInt r.1 r.2
    else
      let r := fmtFrac ['s'] u 9
      let b1 := fmtInt r.1 (r.2 % 60)
      let u2 := r.2 / 60
      if u2 > 0 then
        let b2 := fmtInt ('m' :: b1) (u2 % 60)
        let u3 := u2 / 60
        if u3 > 0 then fmtInt ('h' :: b2) u3 else b2
      else b1
  String.mk (if d < 0 then '-' :: body else body)

/-! ## `getLocalIPsWithRetry` -/

/-- What the program does, in order. -/
inductive Event where
  | scan (r : Except String (List String))
  | check (elapsed : Int)
  | sleep (d : Int)
  | print (s : String)
  | notify (serverURL token title message : String)
  deriving DecidableEq

/-- What the discovery loop reads from outside: the reading of `time.Now()` at
its start, what `net.InterfaceAddrs()` returns at attempt `i` (counted from 0),
the clock time `scanDur i` that passes from the start of attempt `i` to the
`time.Since` that follows it, and the clock time `sleepDur i` that passes during
the `time.Sleep` after attempt `i`. -/
structure Env where
  start : Int
  addrs : Nat → Except String (List Addr)
  scanDur : Nat → Nat
  sleepDur : Nat → Nat

/-- A finished call: the returned pair, the events in order and the clock
reading at the return. -/
structure Outcome where
  result : Except String (List String)
  trace : List Event
  finish : Int
  deriving DecidableEq

/-- The error of `getLocalIPsWithRetry`: `fmt.Errorf("在%v时间内未能获取到IP地址", timeout)`. -/
def timeoutMsg (timeout : Int) : String :=
  "在" ++ Duration.String timeout ++ "时间内未能获取到IP地址"

/-- The line printed after each sleep. -/
def retryLine : String := "未找到IP，5秒后重试...\n"

/-- The `for` loop of `getLocalIPsWithRetry` from the start of attempt `i`, the
clock showing `now`; `fuel` bounds the number of attempts, `none` means the
bound was reached. -/
def retryLoop (timeout : Int) (env : Env) : Nat → Nat → Int → Option Outcome
  | 0, _, _ => none
  | fuel + 1, i, now =>
    let now1 := now + (env.scanDur i : Int)
    match getLocalIPs (env.addrs i) with
    | .ok ips => some ⟨.ok ips, [.scan (.ok ips)], now1⟩
    | .error err =>
      let elapsed := Since env.start now1
      if elapsed ≥ timeout then
        some ⟨.error (timeoutMsg timeout), [.scan (.error err), .check elapsed], now1⟩
      else
        (retryLoop timeout env fuel (i + 1) (now1 + (env.sleepDur i : Int))).map fun o =>
          { o with trace := .scan (.error err) :: .check elapsed :: .sleep (5 * Second)
              :: .print retryLine :: o.trace }

/-- `getLocalIPsWithRetry(timeout)`. -/
def getLocalIPsWithRetry (timeout : Int) (env : Env) (fuel : Nat) : Option Outcome :=
  retryLoop timeout env fuel 0 env.start

/-- Number of scan attempts in a trace. -/
def countScans : List Event → Nat
  | [] => 0
  | .scan _ :: es => countScans es + 1
  | _ :: es => countScans es

/-- Number of sleeps in a trace. -/
def countSleeps : List Event → Nat
  | [] => 0
  | .sleep _ :: es => countSleeps es + 1
  | _ :: es => countSleeps es

/-- Number of calls of `sendGotifyNotification` in a trace. -/
def countNotify : List Event → Nat
  | [] => 0
  | .notify _ _ _ _ :: es => countNotify es + 1
  | _ :: es => countNotify es

/-- The clock reading at the start of attempt `i`. -/
def attemptStart (env : Env) : Nat → Int
  | 0 => env.start
  | i + 1 => attemptStart env i + (env.scanDur i : Int) + (env.sleepDur i : Int)

/-- The clock reading at the check that follows attempt `i`. -/
def checkTime (env : Env) (i : Nat) : Int :=
  attemptStart env i + (env.scanDur i : Int)

/-- The events of a failed attempt `i` that is followed by a retry. -/
def failedRound (env : Env) (i : Nat) : List Event :=
  [.scan (getLocalIPs (env.addrs i)), .check (Since env.start (checkTime env i)),
   .sleep (5 * Second), .print retryLine]

/-- An environment in which no interface has a qualifying address, scans take
`d` nanoseconds and every sleep lasts exactly 5 seconds. -/
def noAddressEnv (d : Nat) : Env :=
  ⟨0, fun _ => .ok scenarioB, fun _ => d, fun _ => 5000000000⟩

/-- An environment in which the interface query itself fails every time. -/
def queryFailsEnv : Env :=
  ⟨0, fun _ => .error "route ip+net: netlinkrib: permission denied", fun _ => 0,
    fun _ => 5000000000⟩

/-- Scenario D: two attempts find nothing, the third finds `192.168.1.20`. -/
def scenarioD : Env :=
  ⟨0, fun i => if i < 2 then .ok scenarioB else .ok scenarioA, fun _ => 0,
    fun _ => 5000000000⟩

/-- The number `⌈T / 5s⌉` of 5-second sleeps that reach `T`. -/
def roundsNeeded (T : Int) : Nat := ((T + 5 * Second - 1) / (5 * Second)).toNat

/-- The outcome of a one-minute discovery in `noAddressEnv 0`: twelve failed
rounds, then the thirteenth attempt and the check at 60 seconds. -/
def allFailOutcome : Outcome :=
  ⟨.error "在1m0s时间内未能获取到IP地址",
   (List.range 12).flatMap (failedRound (noAddressEnv 0))
     ++ [.scan (.error noMatchMsg), .check 60000000000],
   60000000000⟩

/-- The outcome of a one-minute discovery in `queryFailsEnv`. -/
def queryFailsOutcome : Outcome :=
  ⟨.error "在1m0s时间内未能获取到IP地址",
   (List.range 12).flatMap (failedRound queryFailsEnv)
     ++ [.scan (.error "route ip+net: netlinkrib: permission denied"), .check 60000000000],
   60000000000⟩

/-- The outcome of a one-minute discovery when every scan takes 4 seconds and
finds nothing: seven failed rounds, the eighth attempt, the check at 67
seconds. -/
def slowScanOutcome : Outcome :=
  ⟨.error "在1m0s时间内未能获取到IP地址",
   (List.range 7).flatMap (failedRound (noAddressEnv 4000000000))
     ++ [.scan (.error noMatchMsg), .check 67000000000],
   67000000000⟩

/-! ## `sendGotifyNotification` and `main` -/

/-- `sendGotifyNotification`, given `post`, what `http.PostForm` does with a URL
and form values: an error, or the status code of the response. The result is
the returned error, `none` for `nil`. -/
def sendGotifyNotification (post : String → List (String × String) → Except String Nat)
    (serverURL token title message : String) : Option String :=
  let values := [("title", title), ("message", message), ("priority", "5")]
  let reqURL := serverURL ++ "/message?token=" ++ token
  match post reqURL values with
  | .error err => some err
  | .ok status =>
    if status ≠ 200 then some ("发送通知失败，状态码：" ++ Nat.repr status) else none

/-- What `main` reads from outside: the result of `os.Hostname()`, the result of
loading `config.ini` (an error, or the values of `server_url` and `token` of
section `gotify`, empty when absent), the environment of the discovery loop
and the behaviour of `http.PostForm`. -/
structure World where
  hostname : Except String String
  config : Except String (String × String)
  env : Env
  post : String → List (String × String) → Except String Nat

/-- Lines 82-86 of `main`: the host name, or the placeholder when the lookup
fails. -/
def hostnameOf (w : World) : String :=
  match w.hostname with
  | .ok h => h
  | .error _ => "未知主机"

/-- Lines 83-86 of `main`: what is printed when the lookup fails. -/
def hostnameEvents (w : World) : List Event :=
  match w.hostname with
  | .ok _ => []
  | .error err => [.print ("获取主机名失败: " ++ err ++ "\n")]

/-- Lines 102-114 of `main`: title and message of the report for the result of
the discovery. -/
def buildReport (hostname : String) (result : Except String (List String)) :
    String × String :=
  match result with
  | .error err => ("[" ++ hostname ++ "] IP地址获取失败", "获取IP地址失败: " ++ err)
  | .ok ips =>
    ("[" ++ hostname ++ "] IP地址通知",
     ips.foldl (fun message ip => message ++ ("- " ++ ip ++ "\n"))
       ("主机：" ++ hostname ++ "\n发现以下IP地址：\n"))

/-- The program: the events of a run, `none` when the bound `fuel` on the
attempts of the discovery loop was reached. -/
def main (w : World) (fuel : Nat) : Option (List Event) :=
  let hostname := hostnameOf w
  let tr0 := hostnameEvents w
  match w.config with
  | .error err => some (tr0 ++ [.print ("无法加载配置文件: " ++ err ++ "\n")])
  | .ok (gotifyServer, gotifyToken) =>
    match getLocalIPsWithRetry (1 * Minute) w.env fuel with
    | none => none
    | some o =>
      let report := buildReport hostname o.result
      let tr1 := tr0 ++ o.trace ++ [.notify gotifyServer gotifyToken report.1 report.2]
      match sendGotifyNotification w.post gotifyServer gotifyToken report.1 report.2 with
      | some err => some (tr1 ++ [.print ("发送通知失败: " ++ err ++ "\n")])
      | none => some (tr1 ++ [.print "通知发送成功！\n"])

/-- The lines `- a` of a report, one per address, in order. -/
def bulletLines : List String → String
  | [] => ""
  | a :: as => "- " ++ a ++ "\n" ++ bulletLines as

/-- Scenario E: host `host1`, the address found at the third attempt, a server
that answers 200. -/
def scenarioE : World :=
  ⟨.ok "host1", .ok ("http://gotify.lan", "tok"), scenarioD, fun _ _ => .ok 200⟩

/-- A run in which `config.ini` cannot be loaded. -/
def noConfigWorld : World :=
  ⟨.ok "host1", .error "open config.ini: no such file or directory", scenarioD,
    fun _ _ => .ok 200⟩

/-! ## Theorems: `getLocalIPs` -/

theorem collectStep_eq (ips : List String) (addr : Addr) :
    collectStep ips addr = ips ++ (if qualifying addr then [addrText addr] else []) := by
  cases addr with
  | other n t => simp [collectStep, qualifying]
  | IPNet ip m =>
    simp only [collectStep, qualifying, addrText]
    cases ip.IsLoopback <;> cases ip.To4.isSome <;> cases HasPrefix ip.String "192.168" <;> simp

theorem foldl_collectStep (addrs : List Addr) (acc : List String) :
    addrs.foldl collectStep acc = acc ++ (addrs.filter qualifying).map addrText := by
  induction addrs generalizing acc with
  | nil => simp
  | cons a as ih =>
    rw [List.foldl_cons, ih, collectStep_eq]
    cases h : qualifying a <;> simp [List.filter_cons, h]

theorem collectIPs_eq (addrs : List Addr) :
    collectIPs addrs = (addrs.filter qualifying).map addrText := by
  simp [collectIPs, foldl_collectStep]

/-- C1: the list collected by `getLocalIPs` is the sub-sequence of the qualifying
entries of the enumeration (IP network, not loopback, IPv4, text starting with
`192.168`), in order and with multiplicity, each as its text; when that
sub-sequence is not empty it is the success value. -/
theorem getLocalIPs_filter (addrs : List Addr) :
    collectIPs addrs = (addrs.filter qualifying).map addrText
    ∧ (addrs.filter qualifying ≠ [] →
        getLocalIPs (.ok addrs) = .ok ((addrs.filter qualifying).map addrText)) := by
  refine ⟨collectIPs_eq addrs, fun h => ?_⟩
  simp only [getLocalIPs, collectIPs_eq, List.length_map]
  rw [if_neg]
  intro h0
  exact h (List.length_eq_zero.mp h0)

/-- C1, scenario A: `10.0.0.5` and `192.168.1.20` give `["192.168.1.20"]`. -/
theorem getLocalIPs_filter_witness :
    scenarioA.filter qualifying ≠ [] ∧ getLocalIPs (.ok scenarioA) = .ok ["192.168.1.20"] :=
  ⟨by decide, (getLocalIPs_filter scenarioA).2 (by decide)⟩

/-- C2: with the enumeration succeeding, `getLocalIPs` returns an error exactly
when no entry qualifies, that error is the no-matching-address one, and a
success never carries the empty list. -/
theorem getLocalIPs_error_iff (addrs : List Addr) :
    ((∃ e, getLocalIPs (.ok addrs) = .error e) ↔ ∀ a ∈ addrs, qualifying a = false)
    ∧ ((∀ a ∈ addrs, qualifying a = false) → getLocalIPs (.ok addrs) = .error noMatchMsg)
    ∧ (∀ ips, getLocalIPs (.ok addrs) = .ok ips → ips ≠ []) := by
  have key : (addrs.filter qualifying).length = 0 ↔ ∀ a ∈ addrs, qualifying a = false := by
    rw [List.length_eq_zero, List.filter_eq_nil_iff]
    simp
  simp only [getLocalIPs, collectIPs_eq, List.length_map]
  refine ⟨⟨?_, ?_⟩, ?_, ?_⟩
  · rintro ⟨e, he⟩
    by_cases h0 : (addrs.filter qualifying).length = 0
    · exact key.mp h0
    · rw [if_neg h0] at he
      cases he
  · intro h
    rw [if_pos (key.mpr h)]
    exact ⟨_, rfl⟩
  · intro h
    rw [if_pos (key.mpr h)]
  · intro ips h
    by_cases h0 : (addrs.filter qualifying).length = 0
    · rw [if_pos h0] at h
      cases h
    · rw [if_neg h0] at h
      cases h
      intro hnil
      exact h0 (by simpa using congrArg List.length hnil)

/-- C2, scenario B: `10.0.0.5` and `127.0.0.1` give the no-matching-address
error. -/
theorem getLocalIPs_error_iff_witness :
    (∀ a ∈ scenarioB, qualifying a = false)
    ∧ getLocalIPs (.ok scenarioB) = .error "没有找到192.168开头的IP地址" :=
  ⟨by decide, (getLocalIPs_error_iff scenarioB).2.1 (by decide)⟩

/-! ## Theorems: the textual filter on IPv4 addresses -/

theorem HasPrefix_iff (s pre : String) :
    HasPrefix s pre = true ↔ pre.data.isPrefixOf s.data = true := by
  simp only [HasPrefix, Bool.and_eq_true, decide_eq_true_eq, beq_iff_eq, String.length,
    List.isPrefixOf_iff_prefix]
  constructor
  · rintro ⟨_, h⟩
    exact List.prefix_iff_eq_take.mpr h.symm
  · intro h
    exact ⟨h.length_le, (List.prefix_iff_eq_take.mp h).symm⟩

set_option maxRecDepth 100000 in
theorem uitoa_length : ∀ a : Byte,
    1 ≤ (uitoa a.val).data.length ∧ (uitoa a.val).data.length ≤ 3 := by
  decide

set_option maxRecDepth 100000 in
theorem uitoa_eq_192 : ∀ a : Byte, (uitoa a.val).data = ['1', '9', '2'] → a = 192 := by
  decide

set_option maxRecDepth 100000 in
theorem uitoa_eq_168 : ∀ a : Byte, (uitoa a.val).data = ['1', '6', '8'] → a = 168 := by
  decide

theorem uitoa_shape (a : Byte) :
    (∃ c1, (uitoa a.val).data = [c1]) ∨ (∃ c1 c2, (uitoa a.val).data = [c1, c2])
      ∨ (∃ c1 c2 c3, (uitoa a.val).data = [c1, c2, c3]) := by
  have h := uitoa_length a
  generalize (uitoa a.val).data = l at h
  match l, h with
  | [], h => simp at h
  | [c1], _ => exact Or.inl ⟨c1, rfl⟩
  | [c1, c2], _ => exact Or.inr (Or.inl ⟨c1, c2, rfl⟩)
  | [c1, c2, c3], _ => exact Or.inr (Or.inr ⟨c1, c2, c3, rfl⟩)
  | _ :: _ :: _ :: _ :: _, h => simp at h

theorem first_octet (a : Byte) (R : List Char) :
    "192.168".data.isPrefixOf ((uitoa a.val).data ++ '.' :: R) = true
      ↔ a = 192 ∧ ['1', '6', '8'].isPrefixOf R = true := by
  constructor
  · intro h
    rcases uitoa_shape a with ⟨c1, e⟩ | ⟨c1, c2, e⟩ | ⟨c1, c2, c3, e⟩
    · rw [e] at h
      simp [List.isPrefixOf] at h
    · rw [e] at h
      simp [List.isPrefixOf] at h
    · rw [e] at h
      simp [List.isPrefixOf] at h
      obtain ⟨h1, h2, h3, h4⟩ := h
      subst h1 h2 h3
      exact ⟨uitoa_eq_192 a e, by simpa [List.isPrefixOf] using h4⟩
  · rintro ⟨rfl, h⟩
    have e : (uitoa (192 : Byte).val).data = ['1', '9', '2'] := by decide
    rw [e]
    simpa [List.isPrefixOf] using h

theorem second_octet (b : Byte) (R : List Char) :
    ['1', '6', '8'].isPrefixOf ((uitoa b.val).data ++ '.' :: R) = true ↔ b = 168 := by
  constructor
  · intro h
    rcases uitoa_shape b with ⟨c1, e⟩ | ⟨c1, c2, e⟩ | ⟨c1, c2, c3, e⟩
    · rw [e] at h
      simp [List.isPrefixOf] at h
    · rw [e] at h
      simp [List.isPrefixOf] at h
    · rw [e] at h
      simp [List.isPrefixOf] at h
      obtain ⟨h1, h2, h3⟩ := h
      subst h1 h2 h3
      exact uitoa_eq_168 b e
  · rintro rfl
    have e : (uitoa (168 : Byte).val).data = ['1', '6', '8'] := by decide
    rw [e]
    simp [List.isPrefixOf]

theorem String_ipv4 (a b c d : Byte) :
    (IP.String [a, b, c, d]).data
      = (uitoa a.val).data ++ '.' :: ((uitoa b.val).data ++ '.' ::
          ((uitoa c.val).data ++ '.' :: (uitoa d.val).data)) := by
  simp [IP.String, IP.To4, dotted, String.data_append]

theorem String_IPv4 (a b c d : Byte) : IP.String (IPv4 a b c d) = IP.String [a, b, c, d] := by
  simp [IP.String, IP.To4, IPv4, dotted]

/-- C10: for an IPv4 address `a.b.c.d`, in its 4-byte or in its 16-byte form, the
test `HasPrefix(text, "192.168")` of `getLocalIPs` holds exactly when `a = 192`
and `b = 168`: the textual filter accepts the addresses of `192.168.0.0/16`
and no other IPv4 address. -/
theorem HasPrefix_ipv4_iff (a b c d : Byte) :
    (HasPrefix (IP.String [a, b, c, d]) "192.168" = true ↔ a = 192 ∧ b = 168)
    ∧ (HasPrefix (IP.String (IPv4 a b c d)) "192.168" = true ↔ a = 192 ∧ b = 168) := by
  have h : HasPrefix (IP.String [a, b, c, d]) "192.168" = true ↔ a = 192 ∧ b = 168 := by
    rw [HasPrefix_iff, String_ipv4, first_octet, second_octet]
  exact ⟨h, by rw [String_IPv4]; exact h⟩

/-! ## Theorems: the retry loop -/

theorem Since_eq (start now : Int) : Since start now =
    if now - start > 9223372036854775807 then 9223372036854775807
    else if now - start < -9223372036854775808 then -9223372036854775808
    else now - start := by
  simp only [Since, maxDuration, minDuration]
  norm_num

theorem Since_le_of_le (timeout start now : Int) (hT : timeout ≤ maxDuration)
    (h : timeout ≤ now - start) : timeout ≤ Since start now := by
  rw [Since_eq]
  simp only [maxDuration] at hT
  split_ifs <;> omega

theorem le_of_le_Since (timeout start now : Int) (hnow : start ≤ now)
    (h : timeout ≤ Since start now) : timeout ≤ now - start := by
  rw [Since_eq] at h
  split_ifs at h <;> omega

theorem lt_of_Since_lt (timeout start now : Int) (hT : timeout ≤ maxDuration)
    (h : Since start now < timeout) : now - start < timeout := by
  rw [Since_eq] at h
  simp only [maxDuration] at hT
  split_ifs at h <;> omega

theorem Since_lt_of_lt (timeout start now : Int) (hnow : start ≤ now)
    (h : now - start < timeout) : Since start now < timeout := by
  rw [Since_eq]
  split_ifs <;> omega

theorem retryLoop_ok (timeout : Int) (env : Env) (fuel i : Nat) (now : Int)
    (ips : List String) (h : getLocalIPs (env.addrs i) = .ok ips) :
    retryLoop timeout env (fuel + 1) i now
      = some ⟨.ok ips, [.scan (.ok ips)], now + (env.scanDur i : Int)⟩ := by
  simp only [retryLoop, h]

theorem retryLoop_timeout (timeout : Int) (env : Env) (fuel i : Nat) (now : Int)
    (err : String) (h : getLocalIPs (env.addrs i) = .error err)
    (ht : timeout ≤ Since env.start (now + (env.scanDur i : Int))) :
    retryLoop timeout env (fuel + 1) i now
      = some ⟨.error (timeoutMsg timeout),
          [.scan (.error err), .check (Since env.start (now + (env.scanDur i : Int)))],
          now + (env.scanDur i : Int)⟩ := by
  simp only [retryLoop, h, ge_iff_le, if_pos ht]

theorem retryLoop_retry (timeout : Int) (env : Env) (fuel i : Nat) (now : Int)
    (err : String) (h : getLocalIPs (env.addrs i) = .error err)
    (ht : Since env.start (now + (env.scanDur i : Int)) < timeout) :
    retryLoop timeout env (fuel + 1) i now
      = (retryLoop timeout env fuel (i + 1)
          (now + (env.scanDur i : Int) + (env.sleepDur i : Int))).map fun o =>
          { o with trace := .scan (.error err)
              :: .check (Since env.start (now + (env.scanDur i : Int)))
              :: .sleep (5 * Second) :: .print retryLine :: o.trace } := by
  simp only [retryLoop, h, ge_iff_le, if_neg (not_le.mpr ht)]

/-- While attempts `i, ..., i + m - 1` fail with the elapsed time below the
timeout, the loop goes through `m` failed rounds and continues at attempt
`i + m`. -/
theorem retryLoop_rounds (timeout : Int) (env : Env) (m : Nat) :
    ∀ (fuel i : Nat),
      (∀ j, i ≤ j → j < i + m →
        (∃ e, getLocalIPs (env.addrs j) = .error e)
          ∧ Since env.start (checkTime env j) < timeout) →
      retryLoop timeout env (fuel + m) i (attemptStart env i)
        = (retryLoop timeout env fuel (i + m) (attemptStart env (i + m))).map fun o =>
            { o with trace := (List.range' i m).flatMap (failedRound env) ++ o.trace } := by
  induction m with
  | zero =>
    intro fuel i _
    cases h : retryLoop timeout env fuel i (attemptStart env i) <;> simp [h]
  | succ m ih =>
    intro fuel i hyp
    obtain ⟨⟨e, he⟩, hlt⟩ := hyp i (le_refl i) (by omega)
    have hstep := retryLoop_retry timeout env (fuel + m) i (attemptStart env i) e he hlt
    rw [show fuel + (m + 1) = fuel + m + 1 by omega, hstep]
    have hnext : attemptStart env i + (env.scanDur i : Int) + (env.sleepDur i : Int)
        = attemptStart env (i + 1) := rfl
    rw [hnext, ih fuel (i + 1) (fun j h1 h2 => hyp j (by omega) (by omega))]
    rw [show i + 1 + m = i + (m + 1) by omega, Option.map_map]
    congr 1
    funext o
    simp [List.range'_succ, failedRound, he, checkTime]

theorem countScans_append (xs ys : List Event) :
    countScans (xs ++ ys) = countScans xs + countScans ys := by
  induction xs with
  | nil => simp [countScans]
  | cons x xs ih =>
    cases x <;> simp [countScans, ih]
    omega

theorem countSleeps_append (xs ys : List Event) :
    countSleeps (xs ++ ys) = countSleeps xs + countSleeps ys := by
  induction xs with
  | nil => simp [countSleeps]
  | cons x xs ih =>
    cases x <;> simp [countSleeps, ih]
    omega

theorem countNotify_append (xs ys : List Event) :
    countNotify (xs ++ ys) = countNotify xs + countNotify ys := by
  induction xs with
  | nil => simp [countNotify]
  | cons x xs ih =>
    cases x <;> simp [countNotify, ih]
    omega

theorem countScans_rounds (env : Env) (m i : Nat) :
    countScans ((List.range' i m).flatMap (failedRound env)) = m := by
  induction m generalizing i with
  | zero => simp [countScans]
  | succ m ih =>
    simp only [List.range'_succ, List.flatMap_cons, countScans_append, ih]
    simp [failedRound, countScans]
    omega

theorem countSleeps_rounds (env : Env) (m i : Nat) :
    countSleeps ((List.range' i m).flatMap (failedRound env)) = m := by
  induction m generalizing i with
  | zero => simp [countSleeps]
  | succ m ih =>
    simp only [List.range'_succ, List.flatMap_cons, countSleeps_append, ih]
    simp [failedRound, countSleeps]
    omega

theorem countNotify_rounds (env : Env) (m i : Nat) :
    countNotify ((List.range' i m).flatMap (failedRound env)) = 0 := by
  induction m generalizing i with
  | zero => simp [countNotify]
  | succ m ih =>
    simp only [List.range'_succ, List.flatMap_cons, countNotify_append, ih]
    simp [failedRound, countNotify]

theorem sleep_mem_rounds (env : Env) (m i : Nat) (d : Int)
    (h : Event.sleep d ∈ (List.range' i m).flatMap (failedRound env)) : d = 5 * Second := by
  simp only [List.mem_flatMap, failedRound] at h
  obtain ⟨j, _, hj⟩ := h
  simp at hj
  exact hj

/-- What holds of every finished call of the loop: the clock did not go back,
and a failure carries the timeout text, was declared at a check with the
elapsed time at or above the timeout, and that check, which follows the scan
of the last attempt, is the last event. -/
theorem retryLoop_failure (timeout : Int) (env : Env) :
    ∀ (fuel i : Nat) (now : Int) (o : Outcome),
      retryLoop timeout env fuel i now = some o →
      now ≤ o.finish ∧ 1 ≤ countScans o.trace ∧
        (∀ e, o.result = .error e →
          e = timeoutMsg timeout ∧ timeout ≤ Since env.start o.finish ∧
          ∃ tr err, o.trace = tr ++ [.scan (.error err), .check (Since env.start o.finish)]
            ∧ getLocalIPs (env.addrs (i + countScans o.trace - 1)) = .error err) := by
  intro fuel
  induction fuel with
  | zero =>
    intro i now o h
    simp [retryLoop] at h
  | succ fuel ih =>
    intro i now o h
    cases hg : getLocalIPs (env.addrs i) with
    | ok ips =>
      rw [retryLoop_ok timeout env fuel i now ips hg] at h
      cases h
      refine ⟨by simp, by simp [countScans], ?_⟩
      intro e he
      cases he
    | error err =>
      by_cases ht : timeout ≤ Since env.start (now + (env.scanDur i : Int))
      · rw [retryLoop_timeout timeout env fuel i now err hg ht] at h
        cases h
        refine ⟨by simp, by simp [countScans], ?_⟩
        intro e he
        cases he
        refine ⟨rfl, ht, [], err, rfl, ?_⟩
        simpa [countScans] using hg
      · rw [retryLoop_retry timeout env fuel i now err hg (not_le.mp ht)] at h
        obtain ⟨o1, ho1, rfl⟩ := Option.map_eq_some'.mp h
        obtain ⟨h1, h2, h3⟩ := ih (i + 1) _ o1 ho1
        refine ⟨by simp only; omega, by simp [countScans], ?_⟩
        intro e he
        obtain ⟨e1, e2, tr, err1, e3, e4⟩ := h3 e he
        refine ⟨e1, e2, Event.scan (.error err)
          :: Event.check (Since env.start (now + (env.scanDur i : Int)))
          :: Event.sleep (5 * Second) :: Event.print retryLine :: tr, err1, by simp [e3], ?_⟩
        have hc : i + countScans (Event.scan (.error err)
            :: Event.check (Since env.start (now + (env.scanDur i : Int)))
            :: Event.sleep (5 * Second) :: Event.print retryLine :: o1.trace) - 1
            = i + 1 + countScans o1.trace - 1 := by
          simp only [countScans]
          omega
        rw [hc]
        exact e4

/-- The bound on the clock reading at a failure: either the first attempt of
this call was the last one, or the last check came less than the timeout plus
the last sleep plus the last scan after the start. -/
theorem retryLoop_finish_bound (timeout : Int) (env : Env) (hT : timeout ≤ maxDuration) :
    ∀ (fuel i : Nat) (now : Int) (o : Outcome),
      retryLoop timeout env fuel i now = some o → ∀ e, o.result = .error e →
      (countScans o.trace = 1 ∧ o.finish = now + (env.scanDur i : Int))
      ∨ (2 ≤ countScans o.trace ∧
          o.finish - env.start < timeout + (env.sleepDur (i + countScans o.trace - 2) : Int)
            + (env.scanDur (i + countScans o.trace - 1) : Int)) := by
  intro fuel
  induction fuel with
  | zero =>
    intro i now o h
    simp [retryLoop] at h
  | succ fuel ih =>
    intro i now o h e he
    cases hg : getLocalIPs (env.addrs i) with
    | ok ips =>
      rw [retryLoop_ok timeout env fuel i now ips hg] at h
      cases h
      cases he
    | error err =>
      by_cases ht : timeout ≤ Since env.start (now + (env.scanDur i : Int))
      · rw [retryLoop_timeout timeout env fuel i now err hg ht] at h
        cases h
        exact Or.inl ⟨by simp [countScans], rfl⟩
      · rw [retryLoop_retry timeout env fuel i now err hg (not_le.mp ht)] at h
        obtain ⟨o1, ho1, rfl⟩ := Option.map_eq_some'.mp h
        have hlt := lt_of_Since_lt timeout env.start _ hT (not_le.mp ht)
        have hc : countScans (Event.scan (.error err)
            :: Event.check (Since env.start (now + (env.scanDur i : Int)))
            :: Event.sleep (5 * Second) :: Event.print retryLine :: o1.trace)
            = countScans o1.trace + 1 := by
          simp only [countScans]
        right
        simp only [hc]
        rcases ih (i + 1) _ o1 ho1 e he with ⟨c1, f1⟩ | ⟨c2, f2⟩
        · rw [c1, f1]
          refine ⟨by omega, ?_⟩
          rw [show i + (1 + 1) - 2 = i by omega, show i + (1 + 1) - 1 = i + 1 by omega]
          omega
        · refine ⟨by omega, ?_⟩
          rw [show i + (countScans o1.trace + 1) - 2 = i + 1 + countScans o1.trace - 2 by omega,
            show i + (countScans o1.trace + 1) - 1 = i + 1 + countScans o1.trace - 1 by omega]
          exact f2

theorem attemptStart_exact (env : Env) (hscan : ∀ i, env.scanDur i = 0)
    (hsleep : ∀ i, env.sleepDur i = 5000000000) (j : Nat) :
    attemptStart env j = env.start + 5000000000 * (j : Int) := by
  induction j with
  | zero => simp [attemptStart]
  | succ j ih =>
    simp only [attemptStart, ih, hscan, hsleep]
    push_cast
    omega

/-! ## Theorems: `getLocalIPsWithRetry` -/

/-- C3, as the code has it: a terminal failure of `getLocalIPsWithRetry` carries
the text made from the timeout alone, so two failed runs with the same timeout
carry the same reason whatever their scan attempts returned. -/
theorem retry_failure_reason (timeout : Int) (env1 env2 : Env) (fuel1 fuel2 : Nat)
    (o1 o2 : Outcome) (e1 e2 : String)
    (h1 : getLocalIPsWithRetry timeout env1 fuel1 = some o1) (r1 : o1.result = .error e1)
    (h2 : getLocalIPsWithRetry timeout env2 fuel2 = some o2) (r2 : o2.result = .error e2) :
    e1 = timeoutMsg timeout ∧ e2 = e1 := by
  have a1 := ((retryLoop_failure timeout env1 fuel1 0 env1.start o1 h1).2.2 e1 r1).1
  have a2 := ((retryLoop_failure timeout env2 fuel2 0 env2.start o2 h2).2.2 e2 r2).1
  exact ⟨a1, a2.trans a1.symm⟩

/-- C3, witness: the run that never finds an address and the run whose
interface query always fails both report the one-minute text. -/
theorem retry_failure_reason_witness :
    getLocalIPsWithRetry Minute (noAddressEnv 0) 13 = some allFailOutcome
    ∧ getLocalIPsWithRetry Minute queryFailsEnv 13 = some queryFailsOutcome
    ∧ "在1m0s时间内未能获取到IP地址" = timeoutMsg Minute
    ∧ "在1m0s时间内未能获取到IP地址" = "在1m0s时间内未能获取到IP地址" :=
  ⟨by decide, by decide,
    retry_failure_reason Minute (noAddressEnv 0) queryFailsEnv 13 13 allFailOutcome
      queryFailsOutcome _ _ (by decide) rfl (by decide) rfl⟩

/-- C3 as stated fails: the last scan of one run reports that no address
matches, the last scan of the other that the interface query failed, and both
runs return the same reason, which is neither of the two scan errors. -/
theorem retry_reason_not_last_error :
    getLocalIPsWithRetry Minute (noAddressEnv 0) 13 = some allFailOutcome
    ∧ getLocalIPsWithRetry Minute queryFailsEnv 13 = some queryFailsOutcome
    ∧ getLocalIPs ((noAddressEnv 0).addrs 12) = .error "没有找到192.168开头的IP地址"
    ∧ getLocalIPs (queryFailsEnv.addrs 12)
        = .error "route ip+net: netlinkrib: permission denied"
    ∧ allFailOutcome.result = queryFailsOutcome.result
    ∧ allFailOutcome.result ≠ .error "没有找到192.168开头的IP地址"
    ∧ queryFailsOutcome.result ≠ .error "route ip+net: netlinkrib: permission denied" := by
  decide

/-- C4: when attempts `0, ..., n - 1` fail with the elapsed time at each check
below the timeout and attempt `n` succeeds with `L`, then `getLocalIPsWithRetry`
returns `(L, nil)`; its events are the `n` failed rounds (scan, check, sleep of 5
seconds, print) followed by the successful scan and nothing else: `n + 1` scans
and `n` sleeps. -/
theorem retry_success_at (timeout : Int) (env : Env) (n : Nat) (L : List String)
    (hfail : ∀ j, j < n → (∃ e, getLocalIPs (env.addrs j) = .error e)
      ∧ Since env.start (checkTime env j) < timeout)
    (hok : getLocalIPs (env.addrs n) = .ok L) (fuel : Nat) (hfuel : n < fuel) :
    ∃ o, getLocalIPsWithRetry timeout env fuel = some o ∧ o.result = .ok L
      ∧ o.trace = (List.range n).flatMap (failedRound env) ++ [.scan (.ok L)]
      ∧ countScans o.trace = n + 1 ∧ countSleeps o.trace = n
      ∧ (∀ d, Event.sleep d ∈ o.trace → d = 5 * Second)
      ∧ o.finish = checkTime env n := by
  obtain ⟨f, rfl⟩ : ∃ f, fuel = f + 1 + n := ⟨fuel - 1 - n, by omega⟩
  have hr := retryLoop_rounds timeout env n (f + 1) 0 (fun j _ h2 => hfail j (by omega))
  simp only [Nat.zero_add] at hr
  rw [retryLoop_ok timeout env f n _ L hok] at hr
  refine ⟨_, hr, rfl, ?_, ?_, ?_, ?_, rfl⟩
  · simp [List.range_eq_range']
  · simp [countScans_append, countScans_rounds, countScans]
  · simp [countSleeps_append, countSleeps_rounds, countSleeps]
  · intro d hd
    simp only [Option.map_some', List.mem_append, List.mem_singleton] at hd
    rcases hd with hd | hd
    · exact sleep_mem_rounds env n 0 d hd
    · cases hd

/-- C4, scenario D: success on the third attempt gives three scans, two sleeps
and a return 10 seconds after the start. -/
theorem retry_success_at_witness :
    ∃ o, getLocalIPsWithRetry Minute scenarioD 3 = some o ∧ o.result = .ok ["192.168.1.20"]
      ∧ countScans o.trace = 3 ∧ countSleeps o.trace = 2
      ∧ o.finish - scenarioD.start = 10 * Second := by
  obtain ⟨o, h1, h2, _, h4, h5, _, h7⟩ :=
    retry_success_at Minute scenarioD 2 ["192.168.1.20"]
      (fun j hj => by
        have hj2 : j = 0 ∨ j = 1 := by omega
        rcases hj2 with rfl | rfl
        · exact ⟨⟨noMatchMsg, by decide⟩, by decide⟩
        · exact ⟨⟨noMatchMsg, by decide⟩, by decide⟩)
      (by decide) 3 (by decide)
  refine ⟨o, h1, h2, h4, h5, ?_⟩
  rw [h7]
  decide

/-- C5: when `getLocalIPsWithRetry` returns the terminal failure, the elapsed
time read at the check after the last failed attempt is at least the timeout,
so is the clock time since the start, and that check is the last event: no
sleep follows it. -/
theorem retry_failure_elapsed (timeout : Int) (env : Env) (fuel : Nat) (o : Outcome)
    (e : String) (h : getLocalIPsWithRetry timeout env fuel = some o)
    (he : o.result = .error e) :
    timeout ≤ Since env.start o.finish ∧ timeout ≤ o.finish - env.start
      ∧ ∃ tr err, o.trace = tr ++ [.scan (.error err), .check (Since env.start o.finish)]
          ∧ getLocalIPs (env.addrs (countScans o.trace - 1)) = .error err := by
  obtain ⟨hmono, _, hf⟩ := retryLoop_failure timeout env fuel 0 env.start o h
  obtain ⟨_, hge, tr, err, htr, herr⟩ := hf e he
  refine ⟨hge, le_of_le_Since timeout env.start o.finish hmono hge, tr, err, htr, ?_⟩
  simpa using herr

/-- C5, witness: the one-minute discovery that never finds an address fails at
the check that reads 60 seconds. -/
theorem retry_failure_elapsed_witness :
    getLocalIPsWithRetry Minute (noAddressEnv 0) 13 = some allFailOutcome
    ∧ Minute ≤ Since 0 60000000000 ∧ Minute ≤ allFailOutcome.finish - 0 :=
  have h := retry_failure_elapsed Minute (noAddressEnv 0) 13 allFailOutcome _ (by decide) rfl
  ⟨by decide, h.1, h.2.1⟩

/-- C6 as stated fails: with a timeout of one minute and scans of 4 seconds the
failure comes 67 seconds after the start, not before 64 seconds. -/
theorem retry_elapsed_exceeds_scan_bound :
    getLocalIPsWithRetry Minute (noAddressEnv 4000000000) 13 = some slowScanOutcome
    ∧ slowScanOutcome.result = .error (timeoutMsg Minute)
    ∧ (∀ i, (noAddressEnv 4000000000).scanDur i = 4000000000)
    ∧ ¬ (slowScanOutcome.finish - (noAddressEnv 4000000000).start < Minute + 4000000000) := by
  refine ⟨by decide, by decide, fun _ => rfl, by decide⟩

/-- C6, as the code has it: with a timeout `D > 0` and sleeps of exactly 5
seconds, a terminal failure comes less than `D` plus one sleep of 5 seconds plus
the duration of the last scan attempt after the start. -/
theorem retry_failure_elapsed_lt (timeout : Int) (env : Env) (hpos : 0 < timeout)
    (hT : timeout ≤ maxDuration) (hsleep : ∀ i, (env.sleepDur i : Int) = 5 * Second)
    (fuel : Nat) (o : Outcome) (e : String)
    (h : getLocalIPsWithRetry timeout env fuel = some o) (he : o.result = .error e) :
    o.finish - env.start
      < timeout + 5 * Second + (env.scanDur (countScans o.trace - 1) : Int) := by
  have hb := retryLoop_finish_bound timeout env hT fuel 0 env.start o h e he
  simp only [Nat.zero_add, hsleep] at hb
  simp only [Second] at *
  rcases hb with ⟨c, f⟩ | ⟨_, f⟩
  · rw [c, f]
    simp only [Nat.sub_self]
    omega
  · exact f

/-- C6, witness: one minute, scans of 4 seconds: 67 s < 60 s + 5 s + 4 s. -/
theorem retry_failure_elapsed_lt_witness :
    getLocalIPsWithRetry Minute (noAddressEnv 4000000000) 13 = some slowScanOutcome
    ∧ (67000000000 : Int) - 0 < Minute + 5 * Second + (4000000000 : Nat) :=
  ⟨by decide,
    retry_failure_elapsed_lt Minute (noAddressEnv 4000000000) (by decide) (by decide)
      (fun _ => show ((5000000000 : Nat) : Int) = 5 * Second by decide)
      13 slowScanOutcome _ (by decide) rfl⟩

/-- C7: with a timeout `T > 0`, every scan failing and taking no clock time and
every sleep lasting exactly 5 seconds, `getLocalIPsWithRetry` returns the
terminal failure (any bound above `⌈T / 5s⌉` on the attempts is enough) after
`⌈T / 5s⌉ + 1` scans and `⌈T / 5s⌉` sleeps, `5s * ⌈T / 5s⌉ ≥ T` after the start. -/
theorem retry_all_fail (T : Int) (env : Env) (hpos : 0 < T) (hT : T ≤ maxDuration)
    (hfail : ∀ i, ∃ e, getLocalIPs (env.addrs i) = .error e)
    (hscan : ∀ i, env.scanDur i = 0) (hsleep : ∀ i, env.sleepDur i = 5000000000)
    (fuel : Nat) (hfuel : roundsNeeded T < fuel) :
    ∃ o, getLocalIPsWithRetry T env fuel = some o
      ∧ o.result = .error (timeoutMsg T)
      ∧ countScans o.trace = roundsNeeded T + 1 ∧ countSleeps o.trace = roundsNeeded T
      ∧ o.finish - env.start = 5 * Second * (roundsNeeded T : Int)
      ∧ T ≤ o.finish - env.start
      ∧ 5 * Second * (roundsNeeded T : Int) < T + 5 * Second := by
  obtain ⟨f, rfl⟩ : ∃ f, fuel = f + 1 + roundsNeeded T := ⟨fuel - 1 - roundsNeeded T, by omega⟩
  have hn : (roundsNeeded T : Int) = (T + 4999999999) / 5000000000 := by
    simp only [roundsNeeded, Second]
    omega
  have hchk : ∀ j, checkTime env j = env.start + 5000000000 * (j : Int) := by
    intro j
    simp [checkTime, attemptStart_exact env hscan hsleep j, hscan]
  have hr := retryLoop_rounds T env (roundsNeeded T) (f + 1) 0 (fun j _ h2 => by
    refine ⟨hfail j, Since_lt_of_lt T env.start _ ?_ ?_⟩
    · rw [hchk]
      omega
    · rw [hchk]
      have : (j : Int) < (roundsNeeded T : Int) := by omega
      omega)
  simp only [Nat.zero_add] at hr
  obtain ⟨e, he⟩ := hfail (roundsNeeded T)
  have hlast : T ≤ Since env.start
      (attemptStart env (roundsNeeded T) + (env.scanDur (roundsNeeded T) : Int)) := by
    apply Since_le_of_le T _ _ hT
    have := hchk (roundsNeeded T)
    simp only [checkTime] at this
    rw [this]
    omega
  rw [retryLoop_timeout T env f (roundsNeeded T) _ e he hlast] at hr
  have hfin := hchk (roundsNeeded T)
  simp only [checkTime] at hfin
  refine ⟨_, hr, rfl, ?_, ?_, ?_, ?_, ?_⟩
  · simp [countScans_append, countScans_rounds, countScans]
  · simp [countSleeps_append, countSleeps_rounds, countSleeps]
  · simp only [Option.map_some', hfin, Second]
    omega
  · simp only [Option.map_some', hfin]
    omega
  · simp only [Second]
    omega

/-- C7, scenario C: one minute, every attempt failing: 13 scans, 12 sleeps,
failure 60 seconds after the start. -/
theorem retry_all_fail_witness :
    ∃ o, getLocalIPsWithRetry Minute (noAddressEnv 0) 13 = some o
      ∧ o.result = .error "在1m0s时间内未能获取到IP地址"
      ∧ countScans o.trace = 13 ∧ countSleeps o.trace = 12
      ∧ o.finish - (noAddressEnv 0).start = 60 * Second := by
  obtain ⟨o, h1, h2, h3, h4, h5, _, _⟩ :=
    retry_all_fail Minute (noAddressEnv 0) (by decide) (by decide)
      (fun _ => ⟨noMatchMsg, show getLocalIPs (.ok scenarioB) = .error noMatchMsg by decide⟩)
      (fun _ => rfl) (fun _ => rfl) 13 (by decide)
  have hn : roundsNeeded Minute = 12 := by decide
  rw [hn] at h3 h4 h5
  exact ⟨o, h1, by rw [h2]; decide, h3, h4, by rw [h5]; decide⟩

/-! ## Theorems: `main` -/

theorem retryLoop_no_notify (timeout : Int) (env : Env) :
    ∀ (fuel i : Nat) (now : Int) (o : Outcome),
      retryLoop timeout env fuel i now = some o → countNotify o.trace = 0 := by
  intro fuel
  induction fuel with
  | zero =>
    intro i now o h
    simp [retryLoop] at h
  | succ fuel ih =>
    intro i now o h
    cases hg : getLocalIPs (env.addrs i) with
    | ok ips =>
      rw [retryLoop_ok timeout env fuel i now ips hg] at h
      cases h
      simp [countNotify]
    | error err =>
      by_cases ht : timeout ≤ Since env.start (now + (env.scanDur i : Int))
      · rw [retryLoop_timeout timeout env fuel i now err hg ht] at h
        cases h
        simp [countNotify]
      · rw [retryLoop_retry timeout env fuel i now err hg (not_le.mp ht)] at h
        obtain ⟨o1, ho1, rfl⟩ := Option.map_eq_some'.mp h
        simpa [countNotify] using ih (i + 1) _ o1 ho1

/-- When every sleep lasts at least 5 seconds, the loop returns within
`fuel + 1` attempts as soon as `5s * fuel` more seconds reach the timeout. -/
theorem retryLoop_terminates (timeout : Int) (env : Env) (hT : timeout ≤ maxDuration)
    (hsleep : ∀ i, (5000000000 : Int) ≤ (env.sleepDur i : Int)) :
    ∀ (fuel i : Nat) (now : Int), env.start ≤ now →
      timeout ≤ now - env.start + 5000000000 * (fuel : Int) →
      (retryLoop timeout env (fuel + 1) i now).isSome = true := by
  intro fuel
  induction fuel with
  | zero =>
    intro i now hnow hle
    cases hg : getLocalIPs (env.addrs i) with
    | ok ips => simp [retryLoop_ok timeout env 0 i now ips hg]
    | error err =>
      have ht : timeout ≤ Since env.start (now + (env.scanDur i : Int)) :=
        Since_le_of_le timeout _ _ hT (by omega)
      simp [retryLoop_timeout timeout env 0 i now err hg ht]
  | succ fuel ih =>
    intro i now hnow hle
    cases hg : getLocalIPs (env.addrs i) with
    | ok ips => simp [retryLoop_ok timeout env (fuel + 1) i now ips hg]
    | error err =>
      by_cases ht : timeout ≤ Since env.start (now + (env.scanDur i : Int))
      · simp [retryLoop_timeout timeout env (fuel + 1) i now err hg ht]
      · rw [retryLoop_retry timeout env (fuel + 1) i now err hg (not_le.mp ht),
          Option.isSome_map']
        have h5 := hsleep i
        exact ih (i + 1) _ (by omega) (by push_cast at hle; omega)

theorem countNotify_hostnameEvents (w : World) : countNotify (hostnameEvents w) = 0 := by
  unfold hostnameEvents
  cases w.hostname <;> simp [countNotify]

theorem foldl_bullets (ips : List String) (acc : String) :
    ips.foldl (fun message ip => message ++ ("- " ++ ip ++ "\n")) acc
      = acc ++ bulletLines ips := by
  induction ips generalizing acc with
  | nil => simp [bulletLines]
  | cons a as ih =>
    rw [List.foldl_cons, ih]
    simp [bulletLines, String.append_assoc]

/-- C8: on success the report of `main` has the title `[h] IP地址通知` and the body
made of the two header lines followed by one line `- a` per discovered address,
in the order of the list; this title and body are what the one call of
`sendGotifyNotification` in the run receives. Here `h` is the host name, or the
placeholder when the lookup failed. -/
theorem main_report (w : World) (fuel : Nat) (o : Outcome) (ips : List String)
    (server token : String) (hc : w.config = .ok (server, token))
    (hl : getLocalIPsWithRetry Minute w.env fuel = some o) (hr : o.result = .ok ips) :
    buildReport (hostnameOf w) (.ok ips)
      = ("[" ++ hostnameOf w ++ "] IP地址通知",
         "主机：" ++ hostnameOf w ++ "\n发现以下IP地址：\n" ++ bulletLines ips)
    ∧ ∃ pre post, main w fuel
        = some (pre ++ [.notify server token ("[" ++ hostnameOf w ++ "] IP地址通知")
            ("主机：" ++ hostnameOf w ++ "\n发现以下IP地址：\n" ++ bulletLines ips)] ++ post)
      ∧ countNotify pre = 0 ∧ countNotify post = 0 := by
  have hb : buildReport (hostnameOf w) (.ok ips)
      = ("[" ++ hostnameOf w ++ "] IP地址通知",
         "主机：" ++ hostnameOf w ++ "\n发现以下IP地址：\n" ++ bulletLines ips) := by
    simp only [buildReport, foldl_bullets]
  refine ⟨hb, hostnameEvents w ++ o.trace, ?_⟩
  have hn : countNotify (hostnameEvents w ++ o.trace) = 0 := by
    rw [countNotify_append, countNotify_hostnameEvents,
      retryLoop_no_notify Minute w.env fuel 0 w.env.start o hl]
  simp only [main, hc, one_mul, hl, hr, hb]
  cases sendGotifyNotification w.post server token ("[" ++ hostnameOf w ++ "] IP地址通知")
      ("主机：" ++ hostnameOf w ++ "\n发现以下IP地址：\n" ++ bulletLines ips) with
  | none => exact ⟨_, rfl, hn, by simp [countNotify]⟩
  | some err => exact ⟨_, rfl, hn, by simp [countNotify]⟩

/-- C8, scenario E: host `host1` and the address `192.168.1.20`. -/
theorem main_report_witness :
    ∃ pre post, main scenarioE 3
        = some (pre ++ [.notify "http://gotify.lan" "tok" "[host1] IP地址通知"
            "主机：host1\n发现以下IP地址：\n- 192.168.1.20\n"] ++ post)
      ∧ countNotify pre = 0 ∧ countNotify post = 0 :=
  (main_report scenarioE 3
    ⟨.ok ["192.168.1.20"],
      (List.range 2).flatMap (failedRound scenarioD) ++ [.scan (.ok ["192.168.1.20"])],
      10000000000⟩
    ["192.168.1.20"] "http://gotify.lan" "tok" rfl (by decide) rfl).2

/-- C9 as stated fails: when `config.ini` cannot be loaded, `main` prints the
load error and returns without calling `sendGotifyNotification`. -/
theorem main_no_config_no_notification :
    main noConfigWorld 13
      = some [.print "无法加载配置文件: open config.ini: no such file or directory\n"]
    ∧ countNotify [.print "无法加载配置文件: open config.ini: no such file or directory\n"] = 0 := by
  decide

/-- C9, as the code has it: when the configuration is loaded, a run of `main`
calls `sendGotifyNotification` exactly once, after the discovery loop, with the
report of the loop's result (the address list or the failure reason), and the
one event after the call is the print of its failure or of its success; such a
run exists as soon as every sleep lasts at least the 5 seconds asked for. When
the configuration cannot be loaded, `main` prints that and returns without a
notification. -/
theorem main_notifies_once (w : World) :
    (∀ err, w.config = .error err → ∀ fuel,
        main w fuel = some (hostnameEvents w ++ [.print ("无法加载配置文件: " ++ err ++ "\n")])
        ∧ countNotify (hostnameEvents w ++ [.print ("无法加载配置文件: " ++ err ++ "\n")]) = 0)
    ∧ (∀ server token, w.config = .ok (server, token) →
        (∀ fuel tr, main w fuel = some tr →
          ∃ o last, getLocalIPsWithRetry Minute w.env fuel = some o
            ∧ countNotify tr = 1
            ∧ tr = hostnameEvents w ++ o.trace
                ++ [.notify server token (buildReport (hostnameOf w) o.result).1
                      (buildReport (hostnameOf w) o.result).2, .print last]
            ∧ last = (match sendGotifyNotification w.post server token
                  (buildReport (hostnameOf w) o.result).1
                  (buildReport (hostnameOf w) o.result).2 with
                | some err => "发送通知失败: " ++ err ++ "\n"
                | none => "通知发送成功！\n"))
        ∧ ((∀ i, 5 * Second ≤ (w.env.sleepDur i : Int)) →
            ∀ fuel, 13 ≤ fuel → (main w fuel).isSome = true)) := by
  refine ⟨?_, ?_⟩
  · intro err hc fuel
    refine ⟨by simp only [main, hc], ?_⟩
    rw [countNotify_append, countNotify_hostnameEvents]
    simp [countNotify]
  · intro server token hc
    refine ⟨?_, ?_⟩
    · intro fuel tr h
      simp only [main, hc, one_mul] at h
      cases hl : getLocalIPsWithRetry Minute w.env fuel with
      | none => simp [hl] at h
      | some o =>
        have hn : countNotify o.trace = 0 :=
          retryLoop_no_notify Minute w.env fuel 0 w.env.start o hl
        simp only [hl] at h
        cases hs : sendGotifyNotification w.post server token
            (buildReport (hostnameOf w) o.result).1 (buildReport (hostnameOf w) o.result).2 with
        | none =>
          simp only [hs, Option.some.injEq] at h
          subst h
          refine ⟨o, "通知发送成功！\n", rfl, ?_, by simp, by rw [hs]⟩
          simp [countNotify_append, countNotify_hostnameEvents, hn, countNotify]
        | some err =>
          simp only [hs, Option.some.injEq] at h
          subst h
          refine ⟨o, "发送通知失败: " ++ err ++ "\n", rfl, ?_, by simp, by rw [hs]⟩
          simp [countNotify_append, countNotify_hostnameEvents, hn, countNotify]
    · intro hsleep fuel hfuel
      obtain ⟨f, rfl⟩ : ∃ f, fuel = f + 1 := ⟨fuel - 1, by omega⟩
      have ht := retryLoop_terminates Minute w.env (by decide)
        (fun i => by have := hsleep i; simp only [Second] at this; omega)
        f 0 w.env.start (le_refl _) (by simp only [Minute, Second]; omega)
      simp only [main, hc, one_mul]
      cases hl : getLocalIPsWithRetry Minute w.env (f + 1) with
      | none =>
        rw [getLocalIPsWithRetry] at hl
        rw [hl] at ht
        cases ht
      | some o =>
        simp only
        split <;> rfl

/-- C9, witness: in scenario E the run exists and holds one notification. -/
theorem main_notifies_once_witness :
    (main scenarioE 13).isSome = true
    ∧ ∃ o last, getLocalIPsWithRetry Minute scenarioE.env 13 = some o
        ∧ countNotify ((main scenarioE 13).get (by decide)) = 1
        ∧ (main scenarioE 13).get (by decide) = hostnameEvents scenarioE ++ o.trace
            ++ [.notify "http://gotify.lan" "tok"
                  (buildReport (hostnameOf scenarioE) o.result).1
                  (buildReport (hostnameOf scenarioE) o.result).2, .print last]
        ∧ last = "通知发送成功！\n" := by
  have h := (main_notifies_once scenarioE).2 "http://gotify.lan" "tok" rfl
  refine ⟨h.2 (fun _ => show 5 * Second ≤ ((5000000000 : Nat) : Int) by decide) 13
    (by decide), ?_⟩
  obtain ⟨o, last, h1, h2, h3, h4⟩ := h.1 13 _ (Option.some_get (by decide)).symm
  exact ⟨o, last, h1, h2, h3, h4⟩

end IPReporter
